import Mathlib

/-
Verification development for the feed-ingestion core: a shallow embedding of
the two source modules (the RSS fetch/parse/extract pipeline and the
generative-text enhancement pipeline) together with theorems about the
embedded operations.

Conventions used throughout:
* Python strings are modelled as Lean `String` / `List Char`; the ASCII
  fragment of Python's whitespace class and case conversion is modelled
  (the inputs the theorems evaluate are ASCII or lowercase Cyrillic, where
  the two agree).
* Calls into external libraries (feedparser, defusedxml's actual XML
  machinery, BeautifulSoup, dateutil, hashlib, json) are modelled as
  function parameters ("oracles"): a `none` result stands for the call
  raising.  Everything written in the source modules themselves is
  translated directly.
* A Python function that may raise is modelled with `Option`; callers that
  catch translate `none` into their handler branch.
-/

set_option maxRecDepth 4000

/-! ## Basic Python text primitives -/

/-- ASCII fragment of Python's `\s` / `str.strip` whitespace class. -/
def pyIsSpace (c : Char) : Bool :=
  c = ' ' || c = '\t' || c = '\n' || c = '\r' || c = '\x0b' || c = '\x0c'

/-- Python `str.strip()` (ASCII whitespace fragment). -/
def pyStrip (l : List Char) : List Char :=
  ((l.dropWhile pyIsSpace).reverse.dropWhile pyIsSpace).reverse

/-- Kernel of `re.sub(r'\s+', ' ', text)`: each maximal whitespace run becomes
one space.  The flag records whether the previous character was whitespace. -/
def collapseWsAux : List Char → Bool → List Char
  | [], _ => []
  | c :: rest, prevSpace =>
    if pyIsSpace c then
      if prevSpace then collapseWsAux rest true else ' ' :: collapseWsAux rest true
    else c :: collapseWsAux rest false

/-- `AsyncRSSParser._clean_text`: `re.sub(r'\s+', ' ', text).strip()`, with the
`if not text: return ""` guard. -/
def cleanText (s : String) : String :=
  if s.data = [] then "" else String.mk (pyStrip (collapseWsAux s.data false))

/-- Fuelled kernel of `re.sub(r'<[^>]+>', '', html)`: remove every leftmost,
non-overlapping `<[^>]+>` span (at least one non-`>` character between the
brackets), scanning left to right without rescanning replaced text. -/
def stripTagsF : Nat → List Char → List Char
  | 0, l => l
  | _ + 1, [] => []
  | fuel + 1, c :: rest =>
    if c = '<' then
      let run := rest.takeWhile (fun d => d ≠ '>')
      if 1 ≤ run.length && (rest.drop run.length).head? = some '>' then
        stripTagsF fuel (rest.drop (run.length + 1))
      else c :: stripTagsF fuel rest
    else c :: stripTagsF fuel rest

/-- `re.sub(r'<[^>]+>', '', html)` (each step consumes at least one character,
so `l.length` fuel always suffices). -/
def stripTags (l : List Char) : List Char := stripTagsF l.length l

/-- `AsyncRSSParser._clean_html`: `re.sub(r'<[^>]+>', '', html).strip()`, with
the `if not html: return ""` guard. -/
def cleanHtml (s : String) : String :=
  if s.data = [] then "" else String.mk (pyStrip (stripTags s.data))

/-- Value of a digit run, most significant first. -/
def natOfDigitsGo (acc : Nat) : List Char → Nat
  | [] => acc
  | c :: rest => natOfDigitsGo (acc * 10 + (c.toNat - 48)) rest

/-- Python `int(str)` on a decimal literal: optional surrounding whitespace,
optional sign, then a nonempty digit run; `none` models `ValueError`.
(PEP 515 underscore grouping is not modelled.) -/
def pyInt (s : String) : Option Int :=
  match pyStrip s.data with
  | '-' :: ds =>
    if ds ≠ [] && ds.all Char.isDigit then some (-(natOfDigitsGo 0 ds : Int)) else none
  | '+' :: ds =>
    if ds ≠ [] && ds.all Char.isDigit then some (natOfDigitsGo 0 ds) else none
  | ds =>
    if ds ≠ [] && ds.all Char.isDigit then some (natOfDigitsGo 0 ds) else none

/-- `int(''.join(filter(str.isdigit, s)))`: keep the digits, then parse; `none`
models the `ValueError` that `int('')` raises when no digit survives. -/
def digitsNat (s : String) : Option Nat :=
  let ds := s.data.filter Char.isDigit
  if ds = [] then none else some (natOfDigitsGo 0 ds)

/-- Contiguous-substring test (`needle in haystack` for Python strings). -/
def containsSubL (needle : List Char) : List Char → Bool
  | [] => needle.isEmpty
  | c :: rest => needle.isPrefixOf (c :: rest) || containsSubL needle rest

/-- Python `needle in hay` for strings. -/
def containsSubstr (needle hay : String) : Bool := containsSubL needle.data hay.data

/-- ASCII fragment of Python `str.lower()`. -/
def lowerAscii (s : String) : String := String.mk (s.data.map Char.toLower)

/-- Truthiness of an optional Python string: present and nonempty. -/
def pyTruthy : Option String → Bool
  | some s => s ≠ ""
  | none => false

/-! ## Feed entry data model (rss_parser.py) -/

/-- One element of a feedparser entry's `tags` list, in the three shapes
`_get_categories` accepts (an object with `.term`, a dict with `'term'`, or a
plain string) plus an unrecognized shape. -/
inductive FeedTag
  | term (t : String)
  | dictTerm (t : String)
  | plain (s : String)
  | other
  deriving DecidableEq

/-- Raw feedparser entry: the fields the source reads, each optional because
feedparser objects expose them dialect-dependently (`getattr`/`.get`). -/
structure RawEntry where
  guid : Option String := none
  title : Option String := none
  summary : Option String := none
  description : Option String := none
  link : Option String := none
  published : Option String := none
  updated : Option String := none
  pubDateAttr : Option String := none
  dateAttr : Option String := none
  author : Option String := none
  tags : List FeedTag := []
  deriving DecidableEq

/-- Feed result as `parse_entries` consumes it (`feed_content['entries']`). -/
structure Feed where
  entries : List RawEntry
  deriving DecidableEq

/-- Canonical entry record built by `parse_entries`. -/
structure Entry where
  guid : String
  title : String
  description : String
  link : Option String
  pubDate : String
  imageUrl : Option String
  author : Option String
  categories : List String
  deriving DecidableEq

/-- `AsyncRSSParser._generate_entry_guid`: the explicit `guid` when truthy,
otherwise `md5(link + title + published + updated)` (the md5 hex digest is an
oracle parameter; the source concatenates the four `entry.get(...,'')`
fields). -/
def generateEntryGuid (md5hex : String → String) (e : RawEntry) : String :=
  let hashed := md5hex (e.link.getD "" ++ e.title.getD "" ++ e.published.getD "" ++ e.updated.getD "")
  match e.guid with
  | some g => if g ≠ "" then g else hashed
  | none => hashed

/-- Whether the entry carries a truthy explicit identifier. -/
def hasExplicitGuid (e : RawEntry) : Bool :=
  match e.guid with
  | some g => g ≠ ""
  | none => false

/-- `AsyncRSSParser._get_pub_date`: try `published`, `updated`, `pubDate`,
`date` in order through the (oracle) flexible date parser, else "now". -/
def getPubDate (parseDate : String → Option String) (now : String) (e : RawEntry) : String :=
  (((e.published.bind parseDate).or
    ((e.updated.bind parseDate).or
      ((e.pubDateAttr.bind parseDate).or
        (e.dateAttr.bind parseDate)))).getD now)

/-- `AsyncRSSParser._get_categories`. -/
def getCategories (e : RawEntry) : List String :=
  e.tags.filterMap fun t =>
    match t with
    | .term t => some t
    | .dictTerm t => some t
    | .plain s => some s
    | .other => none

/-- External collaborators of `parse_entries`: the md5 digest, the dateutil
parser, the clock, and the two image-resolution methods (whose bodies walk
BeautifulSoup documents / media structures). -/
structure EntryOracles where
  md5hex : String → String
  parseDate : String → Option String
  now : String
  extractImage : RawEntry → Option String
  extractImageFromHtml : String → String → Option String

/-- Body of the `parse_entries` loop for one raw entry. -/
def mkEntry (O : EntryOracles) (e : RawEntry) : Entry :=
  let link := e.link
  let description := cleanHtml (e.summary.getD (e.description.getD ""))
  let image0 := O.extractImage e
  let imageUrl :=
    if !pyTruthy image0 && pyTruthy link then O.extractImageFromHtml description (link.getD "")
    else image0
  { guid := generateEntryGuid O.md5hex e
    title := cleanText (e.title.getD "No title")
    description := description
    link := link
    pubDate := getPubDate O.parseDate O.now e
    imageUrl := imageUrl
    author := e.author
    categories := getCategories e }

/-- The `parse_entries` loop with its `seen_guids` set. -/
def parseEntriesGo (O : EntryOracles) (seen : List String) : List RawEntry → List Entry
  | [] => []
  | e :: rest =>
    let g := generateEntryGuid O.md5hex e
    if g ∈ seen then parseEntriesGo O seen rest
    else mkEntry O e :: parseEntriesGo O (g :: seen) rest

/-- `AsyncRSSParser.parse_entries`. -/
def parseEntries (O : EntryOracles) (f : Feed) : List Entry :=
  parseEntriesGo O [] f.entries

/-! ## Safe feed parsing (`_safe_parse_feed`) -/

/-- Case-insensitive literal: drop `w` (ASCII case-folded) from the head of the
input, returning the remainder. -/
def dropCiLitGo : List Char → List Char → Option (List Char)
  | [], l => some l
  | _ :: _, [] => none
  | w :: ws, c :: cs => if c.toLower = w.toLower then dropCiLitGo ws cs else none

/-- Match of `<!DOCTYPE[^>[]*(\[[^]]*\])?>` (case-insensitive) anchored at the
head of the input; returns the remainder after the match.  The character
classes leave the backtracker no freedom, so the match is deterministic. -/
def matchDoctypeAt (l : List Char) : Option (List Char) :=
  match dropCiLitGo "<!doctype".data l with
  | none => none
  | some r1 =>
    match r1.dropWhile (fun c => c ≠ '>' && c ≠ '[') with
    | '>' :: rest => some rest
    | '[' :: r3 =>
      match r3.dropWhile (fun c => c ≠ ']') with
      | ']' :: '>' :: rest => some rest
      | _ => none
    | _ => none

/-- Fuelled kernel of
`re.sub(r'<!DOCTYPE[^>[]*(\[[^]]*\])?>', '', content, flags=re.IGNORECASE)`:
remove every leftmost non-overlapping match, continuing after the removal. -/
def stripDoctypeF : Nat → List Char → List Char
  | 0, l => l
  | _ + 1, [] => []
  | fuel + 1, c :: rest =>
    match matchDoctypeAt (c :: rest) with
    | some rem => stripDoctypeF fuel rem
    | none => c :: stripDoctypeF fuel rest

/-- The DOCTYPE-stripping `re.sub` of `_safe_parse_feed` (each step consumes at
least one character, so length fuel suffices). -/
def stripDoctype (s : String) : String := String.mk (stripDoctypeF s.data.length s.data)

/-- The keyword configuration handed to `ET.DefusedXMLParser(...)`. -/
structure DefusedXMLParserConfig where
  forbid_dtd : Bool
  forbid_entities : Bool
  forbid_external : Bool
  deriving DecidableEq

/-- The configuration built at the hardened stage of `_safe_parse_feed`:
`forbid_dtd=True, forbid_entities=True, forbid_external=True`. -/
def hardenedParserConfig : DefusedXMLParserConfig :=
  { forbid_dtd := true, forbid_entities := true, forbid_external := true }

/-- External parsing libraries, as oracles.  `feedparse` is
`feedparser.parse` (`none` = raised); `defusedParse cfg s` is the composite
`ET.parse(..., parser=DefusedXMLParser(cfg))`, `getroot`, `ET.tostring` step
(`none` = any of them raised, or the root was `None`; `some ser` = the
re-serialized tree). -/
structure SafeLibs where
  feedparse : String → Option Feed
  defusedParse : DefusedXMLParserConfig → String → Option String

/-- Stages 2-4 of `_safe_parse_feed`: strip DOCTYPEs, try the hardened parse
and re-feed its serialization to feedparser, and finally fall back to a plain
feedparser run on the cleaned text (whose raising is caught by the outer
handler, yielding `None`). -/
def safeParseRest (L : SafeLibs) (content : String) : Option Feed :=
  let cleaned := stripDoctype content
  match (L.defusedParse hardenedParserConfig cleaned).bind L.feedparse with
  | some f => some f
  | none => L.feedparse cleaned

/-- `AsyncRSSParser._safe_parse_feed` on text content: the direct feedparser
attempt is kept only when it yields at least one entry
(`if parsed.get('entries')`); every stage's exception falls through to the
next, and the outer `except` turns a raising final stage into `None`.
(The bytes branch decodes to text before the cascade; the embedding works on
the decoded text.) -/
def safeParseFeed (L : SafeLibs) (content : String) : Option Feed :=
  match L.feedparse content with
  | some f => if f.entries ≠ [] then some f else safeParseRest L content
  | none => safeParseRest L content

/-! ## Feed fetching (`fetch_feed` and the per-URL feed state) -/

/-- The parser's per-URL mutable state: `feed_status` (dict, absent = never
set) and `feed_errors` (dict with default 0 on read). -/
structure FetcherState where
  feedStatus : String → Option Bool
  feedErrors : String → Nat

/-- State right after `__init__`: both dicts empty. -/
def initialFetcherState : FetcherState :=
  { feedStatus := fun _ => none, feedErrors := fun _ => 0 }

/-- `AsyncRSSParser.set_feed_status`. -/
def setFeedStatus (st : FetcherState) (url : String) (active : Bool) : FetcherState :=
  { st with feedStatus := fun u => if u = url then some active else st.feedStatus u }

/-- `AsyncRSSParser.get_error_count`: `self.feed_errors.get(url, 0)`. -/
def getErrorCount (st : FetcherState) (url : String) : Nat := st.feedErrors url

/-- `AsyncRSSParser.refresh_status`: delete the URL's error entry (reads then
see the default 0). -/
def refreshStatus (st : FetcherState) (url : String) : FetcherState :=
  { st with feedErrors := fun u => if u = url then 0 else st.feedErrors u }

/-- `self.feed_errors[url] = self.feed_errors.get(url, 0) + 1`. -/
def incError (st : FetcherState) (url : String) : FetcherState :=
  { st with feedErrors := fun u => if u = url then st.feedErrors u + 1 else st.feedErrors u }

/-- What one iteration of the `fetch_feed` retry loop observes: the session
found closed by the in-loop check, an HTTP response, or one of the caught
exception classes. -/
inductive AttemptEvent
  | sessionClosed
  | httpResponse (status : Nat) (body : String)
  | clientOSError (appDataAfterCloseNotify : Bool)
  | runtimeErrorSessionClosed
  | runtimeErrorOther
  | otherException

/-- The `for attempt in range(1, self.max_retries + 1)` loop of `fetch_feed`
(`max_retries = 3`).  `events` gives attempt `n`'s observation; the fuel is
`max_retries - attempt + 1`, so `0 < fuel` inside the body is exactly
`attempt < max_retries`.  Result: parse result, updated state, and the number
of GET requests issued.  Only the narrow `APPLICATION_DATA_AFTER_CLOSE_NOTIFY`
`ClientOSError` retries; a non-200 response and the session-closed paths
return without touching `feed_errors`; the remaining exception paths increment
it. -/
def fetchLoop (L : SafeLibs) (st : FetcherState) (url : String)
    (events : Nat → AttemptEvent) : Nat → Nat → Option Feed × FetcherState × Nat
  | _, 0 => (none, st, 0)
  | attempt, fuel + 1 =>
    match events attempt with
    | .sessionClosed => (none, st, 0)
    | .httpResponse status body =>
      if status ≠ 200 then (none, st, 1) else (safeParseFeed L body, st, 1)
    | .clientOSError appData =>
      if appData && 0 < fuel then
        let r := fetchLoop L st url events (attempt + 1) fuel
        (r.1, r.2.1, r.2.2 + 1)
      else (none, incError st url, 1)
    | .runtimeErrorSessionClosed => (none, st, 1)
    | .runtimeErrorOther => (none, incError st url, 1)
    | .otherException => (none, incError st url, 1)

/-- `AsyncRSSParser.fetch_feed`: the inactive-feed early return
(`if not self.feed_status.get(url, True)`), then the session check (a closed
session without a recreation callback aborts; with one, recovery is awaited
and the fetch proceeds), then the retry loop. -/
def fetchFeed (L : SafeLibs) (st : FetcherState) (url : String)
    (sessionClosedAtStart recreateAvailable : Bool) (events : Nat → AttemptEvent) :
    Option Feed × FetcherState × Nat :=
  if (st.feedStatus url).getD true = false then (none, st, 0)
  else if sessionClosedAtStart && !recreateAvailable then (none, st, 0)
  else fetchLoop L st url events 1 3

/-! ## Image filters (`_is_relevant_image`, `_is_valid_image`) -/

/-- The attributes of an HTML image element the two filters consult. -/
structure ImgElement where
  classes : List String
  width : Option String
  height : Option String
  deriving DecidableEq

/-- URL blocklist of `_is_relevant_image`. -/
def relevantUrlBlock : List String :=
  ["pixel", "icon", "logo", "spacer", "ad", "button", "border"]

/-- CSS-class blocklist of `_is_relevant_image`. -/
def relevantClassBlock : List String := ["icon", "logo", "ad", "thumb", "mini"]

/-- `AsyncRSSParser._is_relevant_image`: URL substring filter, class substring
filter, then the size filter (`if width and height: if int(w) < 300 or
int(h) < 200: return False`, with `ValueError` passing).  Evaluation order
matters: `int(width)` runs first (its `ValueError` skips the whole check),
and the `or` short-circuits, so a width parsing below 300 rejects *before*
`int(height)` is ever evaluated — even when the height would not parse. -/
def isRelevantImage (el : ImgElement) (imgUrl : String) : Bool :=
  let urlL := lowerAscii imgUrl
  if relevantUrlBlock.any fun b => containsSubstr b urlL then false
  else if el.classes.any fun cls => relevantClassBlock.any fun b => containsSubstr b (lowerAscii cls) then false
  else
    let sizeReject :=
      if pyTruthy el.width && pyTruthy el.height then
        match pyInt (el.width.getD "") with
        | none => false
        | some w =>
          if w < 300 then true
          else
            match pyInt (el.height.getD "") with
            | none => false
            | some h => h < 200
      else false
    !sizeReject

/-- URL blocklist of `_is_valid_image`. -/
def validUrlBlock : List String :=
  ["pixel", "icon", "logo", "spacer", "ad", "tracker", "counter"]

/-- CSS-class blocklist of `_is_valid_image`. -/
def validClassBlock : List String :=
  ["icon", "logo", "ad", "thumb", "mini", "avatar", "button", "border"]

/-- `AsyncRSSParser._is_valid_image`: empty/blocklisted URL fails, blocklisted
class fails; the size check digit-filters `width`/`height` (default `'0'`),
accepts `w ≥ 300 ∧ h ≥ 200` or `w = 0 ∧ h = 0`, accepts on `ValueError`
(no digit at all), and otherwise rejects. -/
def isValidImage (el : ImgElement) (imgUrl : String) : Bool :=
  let urlL := lowerAscii imgUrl
  if imgUrl = "" || validUrlBlock.any fun b => containsSubstr b urlL then false
  else if el.classes.any fun cls => validClassBlock.any fun b => containsSubstr b (lowerAscii cls) then false
  else
    let wAttr := el.width.getD "0"
    let hAttr := el.height.getD "0"
    let wv := if wAttr ≠ "" then digitsNat wAttr else some 0
    let hv := if hAttr ≠ "" then digitsNat hAttr else some 0
    match wv, hv with
    | some w, some h => if 300 ≤ w && 200 ≤ h then true else w = 0 && h = 0
    | _, _ => true

/-! ## Content enhancer (ai.py) -/

/-- `self.stats` of `AsyncAI`. -/
structure AIStats where
  aiUsed : Nat
  aiErrors : Nat
  tokenUsage : Nat
  deriving DecidableEq

/-- Mutable service state of `AsyncAI`. -/
structure AIState where
  active : Bool
  errorCount : Nat
  consecutiveErrors : Nat
  maxConsecutiveErrors : Nat
  stats : AIStats
  deriving DecidableEq

/-- The configuration surface `AsyncAI` reads for its availability logic. -/
structure AIConfig where
  errorThreshold : Nat
  hasApiKey : Bool
  enableAI : Bool
  deriving DecidableEq

/-- `AsyncAI.__init__`: active iff a provider key and the enable flag are
configured; counters zero; `max_consecutive_errors = AI_ERROR_THRESHOLD`. -/
def initAIState (cfg : AIConfig) : AIState :=
  { active := cfg.hasApiKey && cfg.enableAI
    errorCount := 0
    consecutiveErrors := 0
    maxConsecutiveErrors := cfg.errorThreshold
    stats := ⟨0, 0, 0⟩ }

/-- `AsyncAI.is_available`. -/
def isAvailable (cfg : AIConfig) (s : AIState) : Bool :=
  if !s.active then false else decide (s.errorCount < cfg.errorThreshold)

/-- `AsyncAI._handle_error`: bump `error_count`, `consecutive_errors` and the
error stat, then trip `active = False` once
`consecutive_errors >= max_consecutive_errors`. -/
def handleError (s : AIState) : AIState :=
  let s1 :=
    { s with errorCount := s.errorCount + 1
             consecutiveErrors := s.consecutiveErrors + 1
             stats := { s.stats with aiErrors := s.stats.aiErrors + 1 } }
  if s1.maxConsecutiveErrors ≤ s1.consecutiveErrors then { s1 with active := false } else s1

/-- The literal low-quality phrase signatures of `is_low_quality_response`
(all plain substrings; the final markdown-link regex is modelled
separately). -/
def qualityPhrases : List String :=
  ["в интернете есть много сайтов",
   "посмотрите, что нашлось в поиске",
   "дополнительные материалы:",
   "смотрите также:",
   "читайте далее",
   "читайте также",
   "рекомендуем прочитать",
   "подробнее на сайте",
   "другие источники:",
   "больше информации можно найти"]

/-- Drop an exact literal from the head of the input. -/
def dropLitGo : List Char → List Char → Option (List Char)
  | [], l => some l
  | _ :: _, [] => none
  | w :: ws, c :: cs => if c = w then dropLitGo ws cs else none

/-- After `](`, match `https?://[^)]+\)` at the head of the input. -/
def mdSuffixAfterParen (l : List Char) : Bool :=
  match dropLitGo "http".data l with
  | none => false
  | some r1 =>
    let r2 := match r1 with | 's' :: t => t | _ => r1
    match dropLitGo "://".data r2 with
    | none => false
    | some r3 =>
      let run := r3.takeWhile (fun c => c ≠ ')')
      1 ≤ run.length && (r3.drop run.length).head? = some ')'

/-- After a `[`, scan the `.*` part (no DOTALL: newline stops it) looking for
a position where `](https?://[^)]+\)` completes the match. -/
def mdScanDot : List Char → Bool
  | [] => false
  | c :: rest =>
    (match c :: rest with
     | ']' :: '(' :: r => mdSuffixAfterParen r
     | _ => false)
    || (if c ≠ '\n' then mdScanDot rest else false)

/-- `re.search(r"\[.*\](https?://...)", text)` as a boolean: some position
starts a markdown-style link. -/
def hasMarkdownLink : List Char → Bool
  | [] => false
  | c :: rest => (if c = '[' then mdScanDot rest else false) || hasMarkdownLink rest

/-- `AsyncAI.is_low_quality_response`: empty text, any boilerplate phrase as a
substring of the lowercased text, or an embedded markdown-style link. -/
def isLowQualityResponse (text : String) : Bool :=
  if text = "" then true
  else
    let tl := lowerAscii text
    (qualityPhrases.any fun p => containsSubstr p tl) || hasMarkdownLink tl.data

/-- What one `enhance` call observes from its external calls: an exception
(provider/transport/prompt), a parse cascade that produced nothing, or a
successfully parsed `{title, description}` payload (already sanitized and
truncated by `parse_response`). -/
inductive EnhanceOutcome
  | exn
  | parseFailed
  | parsed (title description : String)

/-- `AsyncAI.enhance` as a state transition: the availability guard, then
either `_handle_error` (exception / unparseable response) or the success path,
which bumps `ai_used` and resets `consecutive_errors` *before* the quality
gate; a low-quality description then only bumps the error stat and returns
`None`. -/
def enhanceStep (cfg : AIConfig) (s : AIState) (o : EnhanceOutcome) :
    Option (String × String) × AIState :=
  if !s.active || !isAvailable cfg s then (none, s)
  else
    match o with
    | .exn => (none, handleError s)
    | .parseFailed => (none, handleError s)
    | .parsed t d =>
      let s1 :=
        { s with stats := { s.stats with aiUsed := s.stats.aiUsed + 1 }
                 consecutiveErrors := 0 }
      if isLowQualityResponse d then
        (none, { s1 with stats := { s1.stats with aiErrors := s1.stats.aiErrors + 1 } })
      else (some (t, d), s1)

/-- The state after a sequence of `enhance` calls. -/
def runEnhance (cfg : AIConfig) (s : AIState) : List EnhanceOutcome → AIState
  | [] => s
  | o :: rest => runEnhance cfg (enhanceStep cfg s o).2 rest

/-! ## The text-response parse cascade (`_parse_text_response`)

The seven extraction regexes are embedded as backtracking matchers.  A matcher
returns, in the engine's preference order, every way of matching a prefix of
the input: each result carries the groups captured so far and the remaining
input.  `reSearchGo` then scans start positions left to right and keeps the
first position's preferred match — exactly `re.search`'s leftmost semantics.
All patterns run under `re.DOTALL | re.IGNORECASE` (ASCII case model). -/

/-- Preference-ordered prefix matches: captured groups and remaining input. -/
def RMatcher : Type := List Char → List (List (List Char) × List Char)

/-- Empty pattern. -/
def mEps : RMatcher := fun s => [([], s)]

/-- Single character from a class. -/
def mChar (p : Char → Bool) : RMatcher := fun s =>
  match s with
  | c :: rest => if p c then [([], rest)] else []
  | [] => []

/-- Single literal character. -/
def mLit (c : Char) : RMatcher := mChar (fun d => d = c)

/-- Sequencing; the left component backtracks last, as in the regex engine. -/
def mSeq (a b : RMatcher) : RMatcher := fun s =>
  (a s).flatMap fun pr => (b pr.2).map fun qr => (pr.1 ++ qr.1, qr.2)

/-- Sequence a list of matchers. -/
def mSeqs : List RMatcher → RMatcher
  | [] => mEps
  | m :: rest => mSeq m (mSeqs rest)

/-- Ordered alternation (`x|y` prefers `x`). -/
def mAlt (a b : RMatcher) : RMatcher := fun s => a s ++ b s

/-- Greedy `x?`. -/
def mOpt (a : RMatcher) : RMatcher := mAlt a mEps

/-- Greedy `[class]*`: longest first. -/
def mStarCl (p : Char → Bool) : RMatcher := fun s =>
  let n := (s.takeWhile p).length
  (List.range (n + 1)).map fun i => ([], s.drop (n - i))

/-- Greedy `[class]+`: longest first, at least one. -/
def mPlusGreedyCl (p : Char → Bool) : RMatcher := fun s =>
  let n := (s.takeWhile p).length
  (List.range n).map fun i => ([], s.drop (n - i))

/-- Lazy `[class]+?`: shortest first, at least one. -/
def mPlusLazyCl (p : Char → Bool) : RMatcher := fun s =>
  let n := (s.takeWhile p).length
  (List.range n).map fun i => ([], s.drop (i + 1))

/-- Capturing group: record the consumed slice (matchers only consume from the
front, so the slice is the length difference). -/
def mGroup (a : RMatcher) : RMatcher := fun s =>
  (a s).map fun pr => (pr.1 ++ [s.take (s.length - pr.2.length)], pr.2)

/-- Case-insensitive literal word. -/
def mCiLit (w : String) : RMatcher := fun s =>
  match dropCiLitGo w.data s with
  | some rest => [([], rest)]
  | none => []

/-- `$` without `re.MULTILINE`: end of input, or just before a final newline;
consumes nothing. -/
def mDollar : RMatcher := fun s =>
  if s = [] || s = ['\n'] then [([], s)] else []

/-- `.` under DOTALL. -/
def anyDotAll (_ : Char) : Bool := true

/-- `["\']`. -/
def isQuoteCh (c : Char) : Bool := c = '"' || c = '\x27'

/-- `[\s:]`. -/
def wsOrColon (c : Char) : Bool := pyIsSpace c || c = ':'

/-- `re.search`: leftmost start position, preferred match there; returns the
captured groups. -/
def reSearchGo (m : RMatcher) : List Char → Option (List (List Char))
  | [] =>
    match m [] with
    | pr :: _ => some pr.1
    | [] => none
  | c :: rest =>
    match m (c :: rest) with
    | pr :: _ => some pr.1
    | [] => reSearchGo m rest

/-- `title["\']?:\s*["\'](.+?)["\']`. -/
def pat1 : RMatcher :=
  mSeqs [mCiLit "title", mOpt (mChar isQuoteCh), mLit ':', mStarCl pyIsSpace,
         mChar isQuoteCh, mGroup (mPlusLazyCl anyDotAll), mChar isQuoteCh]

/-- `заголовок["\']?:\s*["\'](.+?)["\']`. -/
def pat2 : RMatcher :=
  mSeqs [mCiLit "заголовок", mOpt (mChar isQuoteCh), mLit ':', mStarCl pyIsSpace,
         mChar isQuoteCh, mGroup (mPlusLazyCl anyDotAll), mChar isQuoteCh]

/-- `(?:title|заголовок)[\s:]*["\']?(.+?)["\']?(?:\n|$|\.)`. -/
def pat3 : RMatcher :=
  mSeqs [mAlt (mCiLit "title") (mCiLit "заголовок"), mStarCl wsOrColon,
         mOpt (mChar isQuoteCh), mGroup (mPlusLazyCl anyDotAll), mOpt (mChar isQuoteCh),
         mAlt (mLit '\n') (mAlt mDollar (mLit '.'))]

/-- `(?:description|описание)[\s:]*["\']?(.+?)["\']?(?:\n|$|\.)`. -/
def pat4 : RMatcher :=
  mSeqs [mAlt (mCiLit "description") (mCiLit "описание"), mStarCl wsOrColon,
         mOpt (mChar isQuoteCh), mGroup (mPlusLazyCl anyDotAll), mOpt (mChar isQuoteCh),
         mAlt (mLit '\n') (mAlt mDollar (mLit '.'))]

/-- The inline JSON fragment pattern
`{"title"\s*:\s*"([^"]+)"[^}]*"description"\s*:\s*"([^"]+)"}`. -/
def pat5 : RMatcher :=
  mSeqs [mLit '\x7b', mCiLit "\"title\"", mStarCl pyIsSpace, mLit ':', mStarCl pyIsSpace,
         mLit '"', mGroup (mPlusGreedyCl (fun c => c ≠ '"')), mLit '"',
         mStarCl (fun c => c ≠ '\x7d'), mCiLit "\"description\"",
         mStarCl pyIsSpace, mLit ':', mStarCl pyIsSpace,
         mLit '"', mGroup (mPlusGreedyCl (fun c => c ≠ '"')), mLit '"', mLit '\x7d']

/-- `<title>(.+?)</title>\s*<description>(.+?)</description>`. -/
def pat6 : RMatcher :=
  mSeqs [mCiLit "<title>", mGroup (mPlusLazyCl anyDotAll), mCiLit "</title>",
         mStarCl pyIsSpace, mCiLit "<description>", mGroup (mPlusLazyCl anyDotAll),
         mCiLit "</description>"]

/-- `(?:заголовок|title):?\s*([^\n]+)\n+(?:описание|description):?\s*([^\n]+)`. -/
def pat7 : RMatcher :=
  mSeqs [mAlt (mCiLit "заголовок") (mCiLit "title"), mOpt (mLit ':'), mStarCl pyIsSpace,
         mGroup (mPlusGreedyCl (fun c => c ≠ '\n')), mPlusGreedyCl (fun c => c = '\n'),
         mAlt (mCiLit "описание") (mCiLit "description"), mOpt (mLit ':'), mStarCl pyIsSpace,
         mGroup (mPlusGreedyCl (fun c => c ≠ '\n'))]

/-- The fixed pattern order of `_parse_text_response`. -/
def textPatterns : List RMatcher := [pat1, pat2, pat3, pat4, pat5, pat6, pat7]

/-- The title loop: first pattern whose match has a group 1 whose stripped
value is longer than 5 characters. -/
def titleFromPatterns (text : List Char) : Option (List Char) :=
  textPatterns.findSome? fun m =>
    match reSearchGo m text with
    | some gs =>
      match gs.head? with
      | some g1 =>
        let cand := pyStrip g1
        if 5 < cand.length then some cand else none
      | none => none
    | none => none

/-- The description loop (entered only when a title was found): first pattern
whose match has a group 2 (`lastindex >= 2`) whose stripped value is longer
than 10 characters. -/
def descFromPatterns (text : List Char) : Option (List Char) :=
  textPatterns.findSome? fun m =>
    match reSearchGo m text with
    | some gs =>
      match (gs.drop 1).head? with
      | some g2 =>
        let cand := pyStrip g2
        if 10 < cand.length then some cand else none
      | none => none
    | none => none

/-- `re.split(r'\n\n|\n-|\n•', text, maxsplit=1)` when it actually splits:
the part before the first two-character delimiter and the part after it. -/
def splitOnceDelims : List Char → Option (List Char × List Char)
  | [] => none
  | c :: rest =>
    match rest with
    | d :: tail =>
      if c = '\n' && (d = '\n' || d = '-' || d = '•') then some ([], tail)
      else
        match splitOnceDelims rest with
        | some (a, b) => some (c :: a, b)
        | none => none
    | [] => none

/-- Fuelled scanner for `re.split(r'[.!?]\s+', text)`: a sentence delimiter is
a punctuation mark followed by a maximal nonempty whitespace run.  Mode
`false` scans a piece (accumulated reversed in `cur`); mode `true` consumes
the delimiter's whitespace run. -/
def splitSentF : Nat → Bool → List Char → List Char → List (List Char)
  | 0, false, rem, cur => [cur.reverse ++ rem]
  | 0, true, rem, _ => [rem]
  | _ + 1, false, [], cur => [cur.reverse]
  | _ + 1, true, [], _ => [[]]
  | fuel + 1, false, c :: rest, cur =>
    if (c = '.' || c = '!' || c = '?') && (match rest with | r :: _ => pyIsSpace r | [] => false) then
      cur.reverse :: splitSentF fuel true rest []
    else splitSentF fuel false rest (c :: cur)
  | fuel + 1, true, c :: rest, cur =>
    if pyIsSpace c then splitSentF fuel true rest cur
    else splitSentF fuel false (c :: rest) []

/-- `re.split(r'[.!?]\s+', text)` (every call consumes a character or switches
scanner mode, so `2·len + 2` fuel suffices). -/
def splitSentences (text : List Char) : List (List Char) :=
  splitSentF (2 * text.length + 2) false text []

/-- `' '.join(pieces)`. -/
def joinSpace : List (List Char) → List Char
  | [] => []
  | [x] => x
  | x :: rest => x ++ ' ' :: joinSpace rest

/-- The ordered fallback segmentation of `_parse_text_response`: blank-line /
bullet split (both parts stripped), else sentence split (title = first
sentence, description = next up to two, capped at 500), else the hard
character-offset split (first 100 / next 400). -/
def fallbackSeg (text : List Char) : List Char × List Char :=
  match splitOnceDelims text with
  | some (p1, p2) => (pyStrip p1, pyStrip p2)
  | none =>
    let sentences := splitSentences text
    if 1 < sentences.length then
      (sentences.headD [], (joinSpace ((sentences.drop 1).take 2)).take 500)
    else
      (text.take 100, if 100 < text.length then (text.drop 100).take 400 else [])

/-- One replacement step of `AsyncAI._sanitize_text`'s entity escaping. -/
def sanitizeChar (c : Char) : List Char :=
  if c = '&' then "&amp;".data
  else if c = '<' then "&lt;".data
  else if c = '>' then "&gt;".data
  else if c = '"' then "&quot;".data
  else if c = '\x27' then "&apos;".data
  else [c]

/-- The control characters removed by `_sanitize_text` / `_sanitize_prompt_input`
(`[\x00-\x1F\x7F-\x9F]`). -/
def isCtrlChar (c : Char) : Bool :=
  c.toNat ≤ 0x1F || (0x7F ≤ c.toNat && c.toNat ≤ 0x9F)

/-- `AsyncAI._sanitize_text`: strip control characters, then escape
`&`, `<`, `>`, `"`, `'` (the `&` pass runs first, so later-introduced `&`
stay, which the per-character map reproduces). -/
def sanitizeText (l : List Char) : List Char :=
  (l.filter fun c => !isCtrlChar c).flatMap sanitizeChar

/-- `AsyncAI._parse_text_response`: pattern phase (description only sought
when a title was found), fallback segmentation when either field is missing
(recomputing both), then sanitization and truncation to the configured
maxima.  The source always returns a dict here, so the result is total. -/
def parseTextResponse (maxTitle maxDesc : Nat) (text : List Char) :
    List Char × List Char :=
  let t0 := titleFromPatterns text
  let d0 := match t0 with | some _ => descFromPatterns text | none => none
  let td :=
    match t0, d0 with
    | some t, some d => (t, d)
    | _, _ => fallbackSeg text
  ((sanitizeText td.1).take maxTitle, (sanitizeText td.2).take maxDesc)

/-- The worked example input of the spec. -/
def c8Input : List Char :=
  "Title: Hello World\nDescription: This is a test description longer than ten chars".data

/-! ## Shared concrete instances for witnesses and counterexamples -/

/-- Concrete oracle bundle: an injective stand-in digest, a date parser that
always fails (so `pub_date` falls back to "now"), and image extractors that
find nothing. -/
def demoOracles : EntryOracles :=
  { md5hex := fun s => "md5:" ++ s
    parseDate := fun _ => none
    now := "2026-01-01T00:00:00"
    extractImage := fun _ => none
    extractImageFromHtml := fun _ _ => none }

/-- Oracle bundle in which every external parser raises. -/
def noLibs : SafeLibs :=
  { feedparse := fun _ => none, defusedParse := fun _ _ => none }

def c3r1 : RawEntry :=
  { link := some "http://a/1", title := some "T", published := some "p", updated := some "u" }

def c3r2 : RawEntry :=
  { link := some "http://a/1", title := some "T", published := some "p", updated := some "u",
    description := some "other text" }

def c3feed : Feed := ⟨[c3r1, c3r2]⟩

def c6raw : RawEntry :=
  { guid := some "g1", title := some " My  Title ", summary := some "  a  b  " }

def c6feed : Feed := ⟨[c6raw]⟩

/-- Libraries for the C1 counterexample: `feedparse` succeeds with zero
entries on the raw input (which still carries a DOCTYPE) and raises on the
DOCTYPE-stripped text; the hardened stage raises. -/
def c1Libs : SafeLibs :=
  { feedparse := fun s => if s = "<!DOCTYPE x><rss></rss>" then some ⟨[]⟩ else none
    defusedParse := fun _ _ => none }

/-- Event stream delivering a 404 on every attempt. -/
def ev404 : Nat → AttemptEvent := fun _ => .httpResponse 404 "gone"

/-- State with `set_feed_status("u", False)` applied. -/
def c10Inactive : FetcherState := setFeedStatus initialFetcherState "u" false

/-- URL test of `_is_relevant_image` (7-item list). -/
def relevantUrlHit (imgUrl : String) : Bool :=
  relevantUrlBlock.any fun b => containsSubstr b (lowerAscii imgUrl)

/-- Class test of `_is_relevant_image` (5-item list). -/
def relevantClassHit (el : ImgElement) : Bool :=
  el.classes.any fun cls => relevantClassBlock.any fun b => containsSubstr b (lowerAscii cls)

/-- Size test of `_is_relevant_image`: both dimensions present (truthy) and
the short-circuiting `int(width) < 300 or int(height) < 200` holds — the
width parses below 300 (the height is then never evaluated), or the width
parses at 300 or more and the height parses below 200.  An unparseable width,
or an unparseable height reached after a width of at least 300, raises
`ValueError` into the `pass` branch (no rejection). -/
def relevantSizeReject (el : ImgElement) : Bool :=
  if pyTruthy el.width && pyTruthy el.height then
    match pyInt (el.width.getD "") with
    | none => false
    | some w =>
      if w < 300 then true
      else
        match pyInt (el.height.getD "") with
        | none => false
        | some h => h < 200
  else false

/-- URL test of `_is_valid_image` (empty URL or its 7-item list). -/
def validUrlHit (imgUrl : String) : Bool :=
  imgUrl = "" || validUrlBlock.any fun b => containsSubstr b (lowerAscii imgUrl)

/-- Class test of `_is_valid_image` (8-item list). -/
def validClassHit (el : ImgElement) : Bool :=
  el.classes.any fun cls => validClassBlock.any fun b => containsSubstr b (lowerAscii cls)

/-- Size acceptance of `_is_valid_image`: digit-filtered dimensions (absent =
`'0'`) are at least 300×200, or both are zero, or the digit filter leaves
nothing (the `int('')` `ValueError` path). -/
def validSizeAccept (el : ImgElement) : Bool :=
  let wAttr := el.width.getD "0"
  let hAttr := el.height.getD "0"
  let wv := if wAttr ≠ "" then digitsNat wAttr else some 0
  let hv := if hAttr ≠ "" then digitsNat hAttr else some 0
  match wv, hv with
  | some w, some h => if 300 ≤ w && 200 ≤ h then true else w = 0 && h = 0
  | _, _ => true

def c4cfg : AIConfig := { errorThreshold := 2, hasApiKey := true, enableAI := true }

/-- A reachable state one failure away from the threshold. -/
def c4state : AIState :=
  { active := true, errorCount := 1, consecutiveErrors := 1, maxConsecutiveErrors := 2,
    stats := ⟨0, 1, 0⟩ }

def c5cfg : AIConfig := { errorThreshold := 3, hasApiKey := true, enableAI := true }

def c5state : AIState := initAIState c5cfg

/-- Input on which the pattern phase finds a title but no description. -/
def c9Input : List Char := "Title: Hello World".data

/-! ## Helper lemmas -/

theorem mkEntry_guid (O : EntryOracles) (e : RawEntry) :
    (mkEntry O e).guid = generateEntryGuid O.md5hex e := rfl

theorem generateEntryGuid_of_no_explicit (O : EntryOracles) (e : RawEntry)
    (h : hasExplicitGuid e = false) :
    generateEntryGuid O.md5hex e =
      O.md5hex (e.link.getD "" ++ e.title.getD "" ++ e.published.getD "" ++ e.updated.getD "") := by
  unfold hasExplicitGuid at h
  unfold generateEntryGuid
  cases hg : e.guid with
  | none => simp
  | some g =>
    rw [hg] at h
    have hgg : g = "" := by simpa using h
    simp [hgg]

theorem parseEntriesGo_filter (O : EntryOracles) (g : String) :
    ∀ (l : List RawEntry) (seen : List String),
      (parseEntriesGo O seen l).filter (fun e => e.guid == g) =
        (if g ∈ seen then []
         else
           match l.find? (fun r => generateEntryGuid O.md5hex r == g) with
           | some r => [mkEntry O r]
           | none => []) := by
  intro l
  induction l with
  | nil =>
    intro seen
    simp only [parseEntriesGo, List.filter_nil, List.find?_nil]
    split <;> rfl
  | cons r rest ih =>
    intro seen
    by_cases hmem : generateEntryGuid O.md5hex r ∈ seen
    · have hstep : parseEntriesGo O seen (r :: rest) = parseEntriesGo O seen rest := by
        simp [parseEntriesGo, hmem]
      rw [hstep, ih seen]
      by_cases hgseen : g ∈ seen
      · rw [if_pos hgseen, if_pos hgseen]
      · have hg : ¬(generateEntryGuid O.md5hex r = g) := fun h => hgseen (h ▸ hmem)
        rw [if_neg hgseen, if_neg hgseen, List.find?_cons_of_neg _ (by simp [hg])]
    · have hstep : parseEntriesGo O seen (r :: rest)
          = mkEntry O r :: parseEntriesGo O (generateEntryGuid O.md5hex r :: seen) rest := by
        simp [parseEntriesGo, hmem]
      rw [hstep, List.filter_cons]
      by_cases hg : generateEntryGuid O.md5hex r = g
      · have hgseen : g ∉ seen := fun h => hmem (hg.symm ▸ h)
        have hP : ((mkEntry O r).guid == g) = true := by simp [mkEntry_guid, hg]
        rw [if_pos hP, ih (generateEntryGuid O.md5hex r :: seen),
          if_pos (List.mem_cons.mpr (Or.inl hg.symm)), if_neg hgseen,
          List.find?_cons_of_pos _ (by simp [hg])]
      · have hP : ¬(((mkEntry O r).guid == g) = true) := by simp [mkEntry_guid, hg]
        rw [if_neg hP, ih (generateEntryGuid O.md5hex r :: seen),
          List.find?_cons_of_neg _ (by simp [hg])]
        by_cases hgseen : g ∈ seen
        · rw [if_pos (List.mem_cons_of_mem _ hgseen), if_pos hgseen]
        · rw [if_neg (show ¬g ∈ generateEntryGuid O.md5hex r :: seen by
            intro hc
            rcases List.mem_cons.mp hc with h1 | h1
            · exact hg h1.symm
            · exact hgseen h1), if_neg hgseen]

theorem parseEntriesGo_guid_not_mem (O : EntryOracles) :
    ∀ (l : List RawEntry) (seen : List String) (e : Entry),
      e ∈ parseEntriesGo O seen l → e.guid ∉ seen := by
  intro l
  induction l with
  | nil => intro seen e he; simp [parseEntriesGo] at he
  | cons r rest ih =>
    intro seen e he
    by_cases hmem : generateEntryGuid O.md5hex r ∈ seen
    · exact ih seen e (by simpa [parseEntriesGo, hmem] using he)
    · rcases (by simpa [parseEntriesGo, hmem] using he :
        e = mkEntry O r ∨ e ∈ parseEntriesGo O (generateEntryGuid O.md5hex r :: seen) rest) with h1 | h2
      · rw [h1, mkEntry_guid]; exact hmem
      · intro hc
        exact ih _ e h2 (List.mem_cons_of_mem _ hc)

theorem parseEntriesGo_nodup (O : EntryOracles) :
    ∀ (l : List RawEntry) (seen : List String),
      ((parseEntriesGo O seen l).map Entry.guid).Nodup := by
  intro l
  induction l with
  | nil => intro seen; simp [parseEntriesGo]
  | cons r rest ih =>
    intro seen
    by_cases hmem : generateEntryGuid O.md5hex r ∈ seen
    · simpa [parseEntriesGo, hmem] using ih seen
    · simp only [parseEntriesGo, if_neg hmem, List.map_cons, List.nodup_cons]
      refine ⟨?_, ih (generateEntryGuid O.md5hex r :: seen)⟩
      intro hc
      rcases List.mem_map.mp hc with ⟨e, he, hge⟩
      have := parseEntriesGo_guid_not_mem O rest (generateEntryGuid O.md5hex r :: seen) e he
      rw [mkEntry_guid] at hge
      exact this (List.mem_cons.mpr (Or.inl hge))

theorem parseEntriesGo_mem_exists (O : EntryOracles) :
    ∀ (l : List RawEntry) (seen : List String) (e : Entry),
      e ∈ parseEntriesGo O seen l → ∃ r ∈ l, e = mkEntry O r := by
  intro l
  induction l with
  | nil => intro seen e he; simp [parseEntriesGo] at he
  | cons r rest ih =>
    intro seen e he
    by_cases hmem : generateEntryGuid O.md5hex r ∈ seen
    · rcases ih seen e (by simpa [parseEntriesGo, hmem] using he) with ⟨r0, hr0, he0⟩
      exact ⟨r0, List.mem_cons_of_mem _ hr0, he0⟩
    · rcases (by simpa [parseEntriesGo, hmem] using he :
        e = mkEntry O r ∨ e ∈ parseEntriesGo O (generateEntryGuid O.md5hex r :: seen) rest) with h1 | h2
      · exact ⟨r, List.mem_cons_self _ _, h1⟩
      · rcases ih _ e h2 with ⟨r0, hr0, he0⟩
        exact ⟨r0, List.mem_cons_of_mem _ hr0, he0⟩

theorem stripTagsF_of_no_lt : ∀ (fuel : Nat) (l : List Char), '<' ∉ l → stripTagsF fuel l = l := by
  intro fuel
  induction fuel with
  | zero => intro l _; rfl
  | succ fuel ih =>
    intro l hl
    match l with
    | [] => rfl
    | c :: rest =>
      have hc : ¬(c = '<') := fun h => hl (h ▸ List.mem_cons_self _ _)
      have hrest : '<' ∉ rest := fun h => hl (List.mem_cons_of_mem _ h)
      simp [stripTagsF, hc, ih rest hrest]

theorem cleanHtml_of_no_tag (s : String) (h : '<' ∉ s.data) :
    cleanHtml s = String.mk (pyStrip s.data) := by
  unfold cleanHtml
  by_cases he : s.data = []
  · simp [he, pyStrip]
  · rw [if_neg he]
    unfold stripTags
    rw [stripTagsF_of_no_lt _ _ h]

/-! ## C3 -/

/-- C3: within one `parse_entries` call the emitted `guid`s are unique; for
any guid value the output contains exactly the Entry built from the first raw
entry generating it (first occurrence wins, later duplicates are skipped);
and two raw entries without a truthy explicit identifier and with identical
`(link, title, published, updated)` generate the same content-hash guid. -/
theorem parse_entries_dedup (O : EntryOracles) (f : Feed) :
    (((parseEntries O f).map Entry.guid).Nodup)
    ∧ (∀ g : String,
        (parseEntries O f).filter (fun e => e.guid == g) =
          (match f.entries.find? (fun r => generateEntryGuid O.md5hex r == g) with
           | some r => [mkEntry O r]
           | none => []))
    ∧ (∀ e1 e2 : RawEntry, hasExplicitGuid e1 = false → hasExplicitGuid e2 = false →
        e1.link = e2.link → e1.title = e2.title → e1.published = e2.published →
        e1.updated = e2.updated →
        generateEntryGuid O.md5hex e1 = generateEntryGuid O.md5hex e2) := by
  refine ⟨parseEntriesGo_nodup O f.entries [], ?_, ?_⟩
  · intro g
    have := parseEntriesGo_filter O g f.entries []
    simpa [parseEntries] using this
  · intro e1 e2 h1 h2 hl ht hp hu
    rw [generateEntryGuid_of_no_explicit O e1 h1, generateEntryGuid_of_no_explicit O e2 h2,
      hl, ht, hp, hu]

theorem parse_entries_dedup_witness :
    (hasExplicitGuid c3r1 = false ∧ hasExplicitGuid c3r2 = false
      ∧ generateEntryGuid demoOracles.md5hex c3r1 = generateEntryGuid demoOracles.md5hex c3r2)
    ∧ ((parseEntries demoOracles c3feed).map Entry.guid).Nodup
    ∧ parseEntries demoOracles c3feed = [mkEntry demoOracles c3r1] :=
  ⟨⟨by decide, by decide,
    (parse_entries_dedup demoOracles c3feed).2.2 c3r1 c3r2 (by decide) (by decide) rfl rfl rfl rfl⟩,
   (parse_entries_dedup demoOracles c3feed).1,
   by decide⟩

/-! ## C6 -/

/-- C6 counterexample: the summary `"  a  b  "` contains no HTML tag, so under
the claim ("whitespace left untouched") the emitted description would be
`"  a  b  "`; the code's `_clean_html` ends in `.strip()`, so the emitted
description is `"a  b"`.  (The title behaves as claimed.) -/
theorem entry_text_cleaning_counterexample :
    (parseEntries demoOracles c6feed).map Entry.description = ["a  b"]
    ∧ ¬((parseEntries demoOracles c6feed).map Entry.description = ["  a  b  "])
    ∧ (parseEntries demoOracles c6feed).map Entry.title = ["My Title"] := by decide

/-- C6 (amended): the emitted description is the raw summary/description field
with `<[^>]+>` spans removed and the *surrounding* whitespace trimmed
(interior whitespace untouched: on tag-free input `_clean_html` is exactly
`str.strip`); the emitted title has whitespace runs collapsed to single
spaces and surrounding whitespace trimmed. -/
theorem entry_text_cleaning (O : EntryOracles) (f : Feed) (e : Entry)
    (he : e ∈ parseEntries O f) :
    (∃ r ∈ f.entries,
        e.description = cleanHtml (r.summary.getD (r.description.getD ""))
        ∧ e.title = cleanText (r.title.getD "No title"))
    ∧ (∀ s : String, '<' ∉ s.data → cleanHtml s = String.mk (pyStrip s.data)) := by
  refine ⟨?_, fun s hs => cleanHtml_of_no_tag s hs⟩
  rcases parseEntriesGo_mem_exists O f.entries [] e he with ⟨r, hr, he0⟩
  exact ⟨r, hr, by rw [he0]; exact rfl, by rw [he0]; exact rfl⟩

theorem entry_text_cleaning_witness :
    (mkEntry demoOracles c6raw ∈ parseEntries demoOracles c6feed)
    ∧ (∃ r ∈ c6feed.entries,
        (mkEntry demoOracles c6raw).description = cleanHtml (r.summary.getD (r.description.getD ""))
        ∧ (mkEntry demoOracles c6raw).title = cleanText (r.title.getD "No title")) :=
  ⟨by decide,
   (entry_text_cleaning demoOracles c6feed (mkEntry demoOracles c6raw) (by decide)).1⟩

/-! ## C1 -/

/-- C1 counterexample: (i) `_safe_parse_feed` can return `None` although its
first stage did *not* raise (the direct feedparser call succeeded, merely with
zero entries, and only the later stages raised), so "returns absent only if
every stage raises" fails; (ii) a legal DOCTYPE declaration with whitespace
between the internal subset and `>` is not matched by the stripping regex
`<!DOCTYPE[^>[]*(\[[^]]*\])?>`, so "any DOCTYPE declaration is removed by
text-level stripping" fails. -/
theorem safe_parse_counterexample :
    (safeParseFeed c1Libs "<!DOCTYPE x><rss></rss>" = none
      ∧ c1Libs.feedparse "<!DOCTYPE x><rss></rss>" = some ⟨[]⟩)
    ∧ stripDoctype "<!DOCTYPE r [] >" = "<!DOCTYPE r [] >" := by decide

/-- C1 (amended): `_safe_parse_feed` is a total function of its input (its
outer handler converts any escaping exception into `None`); the hardened XML
stage receives the input with every leftmost non-overlapping match of the
DOCTYPE pattern textually removed and runs with `forbid_dtd`,
`forbid_entities` and `forbid_external` all set (so it never resolves an
external resource; DOCTYPE forms missed by the textual pattern are rejected
by that stage instead); and the operation returns absent exactly when no
stage yields a result: the direct parse raises or yields no entries, the
hardened stage (or the re-parse of its serialization) raises, and the final
fallback parse raises.  The last conjunct shows the stripping on a typical
external-entity payload. -/
theorem safe_parse_cascade (L : SafeLibs) (content : String) :
    (safeParseFeed L content = none ↔
      ((∀ f : Feed, L.feedparse content = some f → f.entries = [])
        ∧ (L.defusedParse hardenedParserConfig (stripDoctype content)).bind L.feedparse = none
        ∧ L.feedparse (stripDoctype content) = none))
    ∧ hardenedParserConfig.forbid_dtd = true
    ∧ hardenedParserConfig.forbid_entities = true
    ∧ hardenedParserConfig.forbid_external = true
    ∧ stripDoctype "<!DOCTYPE rss [<!ENTITY xxe SYSTEM \"file:///etc/passwd\">]><rss></rss>"
        = "<rss></rss>" := by
  refine ⟨?_, rfl, rfl, rfl, by decide⟩
  have hrest : safeParseRest L content = none ↔
      ((L.defusedParse hardenedParserConfig (stripDoctype content)).bind L.feedparse = none
        ∧ L.feedparse (stripDoctype content) = none) := by
    simp only [safeParseRest]
    cases h3 : (L.defusedParse hardenedParserConfig (stripDoctype content)).bind L.feedparse with
    | none => simp
    | some f => simp
  simp only [safeParseFeed]
  cases h1 : L.feedparse content with
  | none =>
    show safeParseRest L content = none ↔ _
    rw [hrest]
    constructor
    · intro h
      exact ⟨(fun f0 hf0 => nomatch hf0), h.1, h.2⟩
    · intro h
      exact ⟨h.2.1, h.2.2⟩
  | some f =>
    show (if f.entries ≠ [] then some f else safeParseRest L content) = none ↔ _
    by_cases hne : f.entries = []
    · rw [if_neg (by simp [hne]), hrest]
      constructor
      · intro h
        exact ⟨(fun f0 hf0 => Option.some.inj hf0 ▸ hne), h.1, h.2⟩
      · intro h
        exact ⟨h.2.1, h.2.2⟩
    · rw [if_pos hne]
      constructor
      · intro h; cases h
      · intro h; exact absurd (h.1 f rfl) hne

/-! ## C2 -/

theorem fetchFeed_active_sess (L : SafeLibs) (st : FetcherState) (url : String)
    (events : Nat → AttemptEvent) (c r : Bool)
    (hstat : (st.feedStatus url).getD true = true)
    (hsess : (c && !r) = false) :
    fetchFeed L st url c r events = fetchLoop L st url events 1 3 := by
  unfold fetchFeed
  rw [hstat, hsess]
  simp

/-- C2 (amended): a non-200 HTTP response on the first attempt terminates the
fetch immediately with an absent result and no retry (exactly one request is
issued), but the URL's error counter is *not* incremented —
`get_error_count(url)` is unchanged (the counter moves only on the exception
paths of the loop). -/
theorem fetch_feed_non200 (L : SafeLibs) (st : FetcherState) (url : String)
    (events : Nat → AttemptEvent) (c r : Bool) (status : Nat) (body : String)
    (hstat : (st.feedStatus url).getD true = true)
    (hsess : (c && !r) = false)
    (hev : events 1 = .httpResponse status body)
    (hne : status ≠ 200) :
    fetchFeed L st url c r events = (none, st, 1)
    ∧ getErrorCount (fetchFeed L st url c r events).2.1 url = getErrorCount st url := by
  have h1 : fetchFeed L st url c r events = (none, st, 1) := by
    rw [fetchFeed_active_sess L st url events c r hstat hsess,
      show (3 : Nat) = 2 + 1 from rfl]
    simp only [fetchLoop, hev]
    simp [hne]
  exact ⟨h1, by rw [h1]⟩

theorem fetch_feed_non200_witness :
    ((initialFetcherState.feedStatus "http://feed").getD true = true ∧ (404 : Nat) ≠ 200)
    ∧ (fetchFeed noLibs initialFetcherState "http://feed" false false ev404
        = (none, initialFetcherState, 1)
      ∧ getErrorCount (fetchFeed noLibs initialFetcherState "http://feed" false false ev404).2.1
          "http://feed" = getErrorCount initialFetcherState "http://feed") :=
  ⟨⟨rfl, by decide⟩,
   fetch_feed_non200 noLibs initialFetcherState "http://feed" ev404 false false 404 "gone"
     rfl rfl rfl (by decide)⟩

/-- C2 counterexample: on a 404 response `fetch_feed` returns `None` after a
single request, and the error counter stays at 0 — it is *not* one greater
than before, contradicting the claim's "increments that URL's error
counter". -/
theorem fetch_feed_non200_counterexample :
    (fetchFeed noLibs initialFetcherState "u" false false ev404).1 = none
    ∧ (fetchFeed noLibs initialFetcherState "u" false false ev404).2.2 = 1
    ∧ getErrorCount (fetchFeed noLibs initialFetcherState "u" false false ev404).2.1 "u" = 0
    ∧ ¬(getErrorCount (fetchFeed noLibs initialFetcherState "u" false false ev404).2.1 "u"
        = getErrorCount initialFetcherState "u" + 1) := by
  refine ⟨rfl, rfl, rfl, by decide⟩

/-! ## C10 -/

/-- C10: the inactive-feed early return of `fetch_feed` fires exactly for URLs
whose stored status is the explicit `False` (it yields `None` with zero
requests and an unchanged state); any other URL — in particular one never
passed to `set_feed_status`, whose lookup yields the default `True` —
proceeds past the gate to the session check and retry loop.  Freshly
initialized state stores no status, and `set_feed_status url False` is what
creates the explicit `False`. -/
theorem fetch_feed_inactive_gate (L : SafeLibs) (st : FetcherState) (url : String)
    (c r : Bool) (events : Nat → AttemptEvent) :
    (st.feedStatus url = some false →
      fetchFeed L st url c r events = (none, st, 0))
    ∧ (st.feedStatus url ≠ some false →
      fetchFeed L st url c r events =
        (if c && !r then (none, st, 0) else fetchLoop L st url events 1 3))
    ∧ initialFetcherState.feedStatus url = none
    ∧ (setFeedStatus st url false).feedStatus url = some false := by
  refine ⟨?_, ?_, rfl, by simp [setFeedStatus]⟩
  · intro h
    unfold fetchFeed
    rw [h]
    rfl
  · intro h
    have hs : (st.feedStatus url).getD true = true := by
      cases hs0 : st.feedStatus url with
      | none => rfl
      | some b =>
        cases b with
        | false => exact absurd hs0 h
        | true => rfl
    unfold fetchFeed
    rw [hs]
    simp

theorem fetch_feed_inactive_gate_witness :
    (c10Inactive.feedStatus "u" = some false
      ∧ fetchFeed noLibs c10Inactive "u" false false ev404 = (none, c10Inactive, 0))
    ∧ (initialFetcherState.feedStatus "u" ≠ some false
      ∧ fetchFeed noLibs initialFetcherState "u" false false ev404 =
          (if false && !false then (none, initialFetcherState, 0)
           else fetchLoop noLibs initialFetcherState "u" ev404 1 3)) :=
  ⟨⟨rfl, (fetch_feed_inactive_gate noLibs c10Inactive "u" false false ev404).1 rfl⟩,
   ⟨by decide, (fetch_feed_inactive_gate noLibs initialFetcherState "u" false false ev404).2.1
      (by decide)⟩⟩

/-! ## C7 -/

/-- C7 counterexample: the claim's single 12-item blocklist is not what either
filter applies.  `_is_relevant_image` does not check `tracker` (or `counter`,
`thumb`, `mini`, `avatar`) against the URL, so a `tracker` URL passes it; and
`_is_valid_image` does not check `thumb` (or `button`, `border`, `mini`)
against the URL, so a `thumb` URL passes it — both contradicting "rejected if
its URL or CSS class contains any substring of the blocklist". -/
theorem image_filters_counterexample :
    (containsSubstr "tracker" (lowerAscii "http://x/tracker.png") = true
      ∧ isRelevantImage ⟨[], none, none⟩ "http://x/tracker.png" = true)
    ∧ (containsSubstr "thumb" (lowerAscii "http://x/thumb.png") = true
      ∧ isValidImage ⟨[], none, none⟩ "http://x/thumb.png" = true) := by decide

/-- C7 (amended): each filter applies its own blocklists —
`_is_relevant_image` rejects a URL containing one of
pixel/icon/logo/spacer/ad/button/border or a class containing one of
icon/logo/ad/thumb/mini; its size rule, active only when both dimensions are
declared, mirrors the short-circuiting
`int(width) < 300 or int(height) < 200`: it rejects when the width parses
below 300 (then the height is never even evaluated, parseable or not), or
when the width parses at 300 or more and the height parses below 200; it
accepts when a dimension is absent, when the width is unparseable, and when
the height is unparseable with a width of at least 300.
`_is_valid_image` rejects an empty URL or one containing
pixel/icon/logo/spacer/ad/tracker/counter, or a class containing
icon/logo/ad/thumb/mini/avatar/button/border, and its size rule accepts
`w ≥ 300 ∧ h ≥ 200`, `w = h = 0` (e.g. both absent) or a dimension with no
digits at all, rejecting otherwise (in particular when exactly one dimension
is declared).  The spec's three concrete examples behave as stated. -/
theorem image_filters_characterization :
    (∀ (el : ImgElement) (url : String),
      isRelevantImage el url
        = (!relevantUrlHit url && !relevantClassHit el && !relevantSizeReject el))
    ∧ (∀ (el : ImgElement) (url : String),
      isValidImage el url
        = (!validUrlHit url && !validClassHit el && validSizeAccept el))
    ∧ (∀ (el : ImgElement) (url : String),
        el.width = none → el.height = none →
        relevantUrlHit url = false → relevantClassHit el = false →
        isRelevantImage el url = true)
    ∧ isValidImage ⟨["logo"], none, none⟩ "http://a/x.png" = false
    ∧ isRelevantImage ⟨["logo"], none, none⟩ "http://a/x.png" = false
    ∧ isValidImage ⟨[], some "400", some "300"⟩ "http://a/y.png" = true
    ∧ isValidImage ⟨[], some "50", some "50"⟩ "http://a/y.png" = false
    ∧ isRelevantImage ⟨[], some "50", some "50"⟩ "http://a/y.png" = false
    ∧ isRelevantImage ⟨[], some "50", some "x"⟩ "http://a/y.png" = false
    ∧ isRelevantImage ⟨[], some "400", some "x"⟩ "http://a/y.png" = true
    ∧ isRelevantImage ⟨[], some "x", some "50"⟩ "http://a/y.png" = true := by
  have hrel : ∀ (el : ImgElement) (url : String),
      isRelevantImage el url
        = (!relevantUrlHit url && !relevantClassHit el && !relevantSizeReject el) := by
    intro el url
    unfold isRelevantImage relevantUrlHit relevantClassHit relevantSizeReject
    by_cases h1 : (relevantUrlBlock.any fun b => containsSubstr b (lowerAscii url)) = true
    · simp [h1]
    · rw [Bool.not_eq_true] at h1
      by_cases h2 : (el.classes.any fun cls =>
          relevantClassBlock.any fun b => containsSubstr b (lowerAscii cls)) = true
      · simp [h1, h2]
      · rw [Bool.not_eq_true] at h2
        simp [h1, h2]
  have hval : ∀ (el : ImgElement) (url : String),
      isValidImage el url
        = (!validUrlHit url && !validClassHit el && validSizeAccept el) := by
    intro el url
    unfold isValidImage validUrlHit validClassHit validSizeAccept
    by_cases h1 : (decide (url = "") || validUrlBlock.any fun b => containsSubstr b (lowerAscii url)) = true
    · simp [h1]
    · rw [Bool.not_eq_true] at h1
      by_cases h2 : (el.classes.any fun cls =>
          validClassBlock.any fun b => containsSubstr b (lowerAscii cls)) = true
      · simp [h1, h2]
      · rw [Bool.not_eq_true] at h2
        simp [h1, h2]
  refine ⟨hrel, hval, ?_, by decide, by decide, by decide, by decide, by decide,
    by decide, by decide, by decide⟩
  intro el url hw hh hu hc
  rw [hrel el url, hu, hc]
  unfold relevantSizeReject
  rw [hw, hh]
  rfl

theorem image_filters_characterization_witness :
    ((⟨[], none, none⟩ : ImgElement).width = none
      ∧ relevantUrlHit "http://a/pic.jpg" = false
      ∧ relevantClassHit ⟨[], none, none⟩ = false)
    ∧ isRelevantImage ⟨[], none, none⟩ "http://a/pic.jpg" = true :=
  ⟨⟨rfl, by decide, by decide⟩,
   image_filters_characterization.2.2.1 ⟨[], none, none⟩ "http://a/pic.jpg"
     rfl rfl (by decide) (by decide)⟩

/-! ## C4 -/

theorem isAvailable_false_of_inactive (cfg : AIConfig) (s : AIState) (h : s.active = false) :
    isAvailable cfg s = false := by
  simp [isAvailable, h]

theorem enhanceStep_of_not_available (cfg : AIConfig) (s : AIState) (o : EnhanceOutcome)
    (h : isAvailable cfg s = false) : enhanceStep cfg s o = (none, s) := by
  unfold enhanceStep
  rw [h]
  simp

theorem runEnhance_of_not_available (cfg : AIConfig) (s : AIState)
    (h : isAvailable cfg s = false) : ∀ l : List EnhanceOutcome, runEnhance cfg s l = s := by
  intro l
  induction l with
  | nil => rfl
  | cons o rest ih =>
    rw [runEnhance, enhanceStep_of_not_available cfg s o h]
    exact ih

/-- C4: an `enhance` call that advances the consecutive-failure counter to (or
past) the configured threshold leaves the service with `is_available() =
False`, and it stays `False` across arbitrarily many further `enhance` calls
— once unavailable, `enhance` returns immediately and never mutates the
state, so the service never auto-reactivates (reactivation would require an
external write to the state). -/
theorem circuit_breaker_permanent (cfg : AIConfig) (s : AIState) (o : EnhanceOutcome)
    (l : List EnhanceOutcome)
    (hadv : (enhanceStep cfg s o).2.consecutiveErrors = s.consecutiveErrors + 1)
    (hthr : (enhanceStep cfg s o).2.maxConsecutiveErrors
      ≤ (enhanceStep cfg s o).2.consecutiveErrors) :
    isAvailable cfg (enhanceStep cfg s o).2 = false
    ∧ isAvailable cfg (runEnhance cfg (enhanceStep cfg s o).2 l) = false := by
  have hact : (enhanceStep cfg s o).2.active = false := by
    by_cases hg : (!s.active || !isAvailable cfg s) = true
    · exfalso
      unfold enhanceStep at hadv
      rw [if_pos hg] at hadv
      simp at hadv
    · rw [Bool.not_eq_true] at hg
      unfold enhanceStep at hadv hthr ⊢
      rw [hg] at hadv hthr ⊢
      cases o with
      | parsed t d =>
        exfalso
        by_cases hq : isLowQualityResponse d = true
        · simp [hq] at hadv
        · rw [Bool.not_eq_true] at hq
          simp [hq] at hadv
      | exn =>
        have hcond : (handleError s).maxConsecutiveErrors ≤ (handleError s).consecutiveErrors := hthr
        unfold handleError at hcond ⊢
        by_cases hc : s.maxConsecutiveErrors ≤ s.consecutiveErrors + 1
        · simp [hc]
        · exfalso
          simp [hc] at hcond
      | parseFailed =>
        have hcond : (handleError s).maxConsecutiveErrors ≤ (handleError s).consecutiveErrors := hthr
        unfold handleError at hcond ⊢
        by_cases hc : s.maxConsecutiveErrors ≤ s.consecutiveErrors + 1
        · simp [hc]
        · exfalso
          simp [hc] at hcond
  have h1 : isAvailable cfg (enhanceStep cfg s o).2 = false :=
    isAvailable_false_of_inactive cfg _ hact
  exact ⟨h1, by rw [runEnhance_of_not_available cfg _ h1 l]; exact h1⟩

theorem circuit_breaker_permanent_witness :
    ((enhanceStep c4cfg c4state .exn).2.consecutiveErrors = c4state.consecutiveErrors + 1
      ∧ (enhanceStep c4cfg c4state .exn).2.maxConsecutiveErrors
          ≤ (enhanceStep c4cfg c4state .exn).2.consecutiveErrors)
    ∧ (isAvailable c4cfg (enhanceStep c4cfg c4state .exn).2 = false
      ∧ isAvailable c4cfg
          (runEnhance c4cfg (enhanceStep c4cfg c4state .exn).2
            [.parsed "t" "a perfectly fine description", .exn]) = false) :=
  ⟨⟨by decide, by decide⟩,
   circuit_breaker_permanent c4cfg c4state .exn [.parsed "t" "a perfectly fine description", .exn]
     (by decide) (by decide)⟩

/-! ## C5 -/

/-- C5 counterexample: on a soft rejection (parse succeeded, description hits
the boilerplate list) `enhance` returns `None` and bumps the error stat, but
it has *already* incremented the used-count (`ai_used`) before the quality
gate — contradicting "the used-count is incremented only on full success, not
on such a soft rejection". -/
theorem soft_rejection_counterexample :
    isLowQualityResponse "читайте также: источник" = true
    ∧ (enhanceStep c5cfg c5state (.parsed "Заголовок новости" "читайте также: источник")).1 = none
    ∧ (enhanceStep c5cfg c5state (.parsed "Заголовок новости" "читайте также: источник")).2.stats.aiUsed
        = c5state.stats.aiUsed + 1
    ∧ ¬((enhanceStep c5cfg c5state (.parsed "Заголовок новости" "читайте также: источник")).2.stats.aiUsed
        = c5state.stats.aiUsed) := by decide

/-- C5 (amended): on a soft rejection from an available state, `enhance`
returns absent, increments the error stat, does not advance the
consecutive-failure counter (it resets it to zero, as on any parsed
response), leaves `error_count` and `active` untouched — but the used-count
is incremented on the soft rejection too, because the code bumps `ai_used`
before the quality gate. -/
theorem soft_rejection_behavior (cfg : AIConfig) (s : AIState) (t d : String)
    (hav : isAvailable cfg s = true) (hlq : isLowQualityResponse d = true) :
    (enhanceStep cfg s (.parsed t d)).1 = none
    ∧ (enhanceStep cfg s (.parsed t d)).2.stats.aiErrors = s.stats.aiErrors + 1
    ∧ (enhanceStep cfg s (.parsed t d)).2.consecutiveErrors = 0
    ∧ (enhanceStep cfg s (.parsed t d)).2.errorCount = s.errorCount
    ∧ (enhanceStep cfg s (.parsed t d)).2.stats.aiUsed = s.stats.aiUsed + 1
    ∧ (enhanceStep cfg s (.parsed t d)).2.active = s.active := by
  have hacts : s.active = true := by
    cases hb : s.active with
    | true => rfl
    | false =>
      rw [isAvailable, hb] at hav
      simp at hav
  have hg : (!s.active || !isAvailable cfg s) = false := by
    rw [hacts, hav]
    rfl
  unfold enhanceStep
  rw [hg]
  simp [hlq]

theorem soft_rejection_behavior_witness :
    (isAvailable c5cfg c5state = true
      ∧ isLowQualityResponse "смотрите также: ссылка" = true)
    ∧ ((enhanceStep c5cfg c5state (.parsed "t" "смотрите также: ссылка")).1 = none
      ∧ (enhanceStep c5cfg c5state (.parsed "t" "смотрите также: ссылка")).2.stats.aiErrors
          = c5state.stats.aiErrors + 1
      ∧ (enhanceStep c5cfg c5state (.parsed "t" "смотрите также: ссылка")).2.consecutiveErrors = 0
      ∧ (enhanceStep c5cfg c5state (.parsed "t" "смотрите также: ссылка")).2.errorCount
          = c5state.errorCount
      ∧ (enhanceStep c5cfg c5state (.parsed "t" "смотрите также: ссылка")).2.stats.aiUsed
          = c5state.stats.aiUsed + 1
      ∧ (enhanceStep c5cfg c5state (.parsed "t" "смотрите также: ссылка")).2.active
          = c5state.active) :=
  ⟨⟨by decide, by decide⟩,
   soft_rejection_behavior c5cfg c5state "t" "смотрите также: ссылка" (by decide) (by decide)⟩

/-! ## C8 -/

/-- C8: on the raw text `Title: Hello World\nDescription: This is a test
description longer than ten chars` the cascade extracts title `Hello World`
(first matching pattern with a group-1 candidate longer than 5 characters —
its length is 11) and a description beginning with `This is a test` (first
pattern with a group-2 candidate longer than 10 characters — its length is
49), provided the configured maxima do not truncate below those lengths. -/
theorem parse_cascade_example (mt md : Nat) (hmt : 11 ≤ mt) (hmd : 14 ≤ md) :
    (parseTextResponse mt md c8Input).1 = "Hello World".data
    ∧ ((parseTextResponse mt md c8Input).2).take 14 = "This is a test".data
    ∧ titleFromPatterns c8Input = some "Hello World".data
    ∧ 5 < "Hello World".data.length
    ∧ descFromPatterns c8Input = some "This is a test description longer than ten chars".data
    ∧ 10 < "This is a test description longer than ten chars".data.length := by
  have h1 : titleFromPatterns c8Input = some "Hello World".data := by decide
  have h2 : descFromPatterns c8Input
      = some "This is a test description longer than ten chars".data := by decide
  have hs1 : sanitizeText "Hello World".data = "Hello World".data := by decide
  have hs2 : sanitizeText "This is a test description longer than ten chars".data
      = "This is a test description longer than ten chars".data := by decide
  have hpt : parseTextResponse mt md c8Input
      = ((sanitizeText "Hello World".data).take mt,
         (sanitizeText "This is a test description longer than ten chars".data).take md) := by
    unfold parseTextResponse
    rw [h1, h2]
  refine ⟨?_, ?_, h1, by decide, h2, by decide⟩
  · rw [hpt, hs1]
    exact List.take_of_length_le (le_trans (by decide) hmt)
  · rw [hpt, hs2]
    show (("This is a test description longer than ten chars".data.take md).take 14) = _
    rw [List.take_take, Nat.min_eq_left hmd]
    decide

theorem parse_cascade_example_witness :
    ((11 ≤ 100 ∧ 14 ≤ 500)
      ∧ (parseTextResponse 100 500 c8Input).1 = "Hello World".data)
    ∧ ((parseTextResponse 100 500 c8Input).2).take 14 = "This is a test".data :=
  ⟨⟨⟨by decide, by decide⟩, (parse_cascade_example 100 500 (by decide) (by decide)).1⟩,
   (parse_cascade_example 100 500 (by decide) (by decide)).2.1⟩

/-! ## C9 -/

/-- C9: whenever the pattern phase leaves either field unset (no title
candidate longer than 5 characters, or — the title having been found — no
group-2 candidate longer than 10 characters), `_parse_text_response`'s result
is computed entirely from the fallback segmentation of the raw text: both
fields are recomputed and any pattern-extracted field is discarded rather
than kept. -/
theorem fallback_overrides_pattern_fields (mt md : Nat) (text : List Char)
    (h : titleFromPatterns text = none ∨ descFromPatterns text = none) :
    parseTextResponse mt md text =
      ((sanitizeText (fallbackSeg text).1).take mt,
       (sanitizeText (fallbackSeg text).2).take md) := by
  unfold parseTextResponse
  cases ht : titleFromPatterns text with
  | none => rfl
  | some t =>
    cases hd : descFromPatterns text with
    | none => rfl
    | some d =>
      rcases h with h | h
      · rw [ht] at h; cases h
      · rw [hd] at h; cases h

theorem fallback_overrides_pattern_fields_witness :
    (titleFromPatterns c9Input = some "Hello World".data
      ∧ descFromPatterns c9Input = none)
    ∧ parseTextResponse 100 500 c9Input =
        ((sanitizeText (fallbackSeg c9Input).1).take 100,
         (sanitizeText (fallbackSeg c9Input).2).take 500) :=
  ⟨⟨by decide, by decide⟩,
   fallback_overrides_pattern_fields 100 500 c9Input (Or.inr (by decide))⟩
